import Mathlib

/-!
Shallow embedding of the Discord bets bot (`src/main.py`).

The ledger state mirrors the three SQLite tables:
  * `users(user_id TEXT PRIMARY KEY, balance INTEGER)` — an association list;
  * `bets(message_id, user_id, choice, amount, resolved, PRIMARY KEY(message_id, user_id))`
    — a list of rows;
  * `highest_bet(id = 1, user_id, message_id, choice, amount)` — an optional singleton row.

Python floats are idealized as `ℚ` and Python's `int(...)` conversion as
truncation toward zero (`pyInt`).  All operations are pure state transformers;
a Python `raise` / early `return` before any write is an `Except.error` (no
new state is produced, i.e. the database is unchanged).
-/

namespace LuckyBot

/-- `DEFAULT_START_BALANCE = 100` (src/main.py line 51). -/
def DEFAULT_START_BALANCE : Int := 100

/-- A row of the `bets` table. `resolved` is the `INTEGER DEFAULT 0` flag,
modelled as a `Bool` (0 ↦ `false`, 1 ↦ `true`). -/
structure Bet where
  message_id : String
  user_id : String
  choice : Int
  amount : Int
  resolved : Bool
deriving DecidableEq, Repr

/-- The singleton `highest_bet` row (minus its fixed `id = 1` column). -/
structure HighestBet where
  user_id : String
  message_id : String
  choice : Int
  amount : Int
deriving DecidableEq, Repr

/-- The whole database state. -/
structure Ledger where
  users : List (String × Int)
  bets : List Bet
  highest : Option HighestBet
deriving DecidableEq, Repr

/-- The empty database produced by `init_db`. -/
def initLedger : Ledger := ⟨[], [], none⟩

/-- Lookup in the `users` association list. -/
def lookupBal (l : List (String × Int)) (uid : String) : Option Int :=
  (l.find? (fun p => p.1 == uid)).map Prod.snd

/-- `SELECT balance FROM users WHERE user_id = ?`. -/
def lookupBalance (s : Ledger) (uid : String) : Option Int :=
  lookupBal s.users uid

/-- `INSERT INTO users(user_id, balance) VALUES(?, ?) ON CONFLICT(user_id)
DO UPDATE SET balance=excluded.balance` on the primary-keyed `users` table. -/
def upsertBalance : List (String × Int) → String → Int → List (String × Int)
  | [], uid, b => [(uid, b)]
  | p :: rest, uid, b =>
      if p.1 == uid then (uid, b) :: rest else p :: upsertBalance rest uid b

/-- `set_user_balance` (src/main.py lines 95-100):
`safe_bal = max(1, int(math.floor(new_balance)))`, upserted, and returned. -/
def set_user_balance (uid : String) (new_balance : ℚ) (s : Ledger) : Int × Ledger :=
  let safe_bal : Int := max 1 ⌊new_balance⌋
  (safe_bal, { s with users := upsertBalance s.users uid safe_bal })

/-- `get_user_balance` (src/main.py lines 84-93): returns the stored balance,
creating the row with `DEFAULT_START_BALANCE` on first access. -/
def get_user_balance (uid : String) (s : Ledger) : Int × Ledger :=
  match lookupBalance s uid with
  | none => (DEFAULT_START_BALANCE,
             (set_user_balance uid (DEFAULT_START_BALANCE : ℚ) s).2)
  | some b => (b, s)

/-- The `ValueError('You already placed a bet on this message.')` raised by
`place_bet`. -/
inductive BetError
  | DuplicateBetError
deriving DecidableEq, Repr

/-- The `highest_bet` update of `place_bet` (src/main.py lines 117-131): upsert
the singleton row when it is absent or `amount > record[0]`. -/
def updateHighest (old : Option HighestBet) (uid mid : String)
    (choice amount : Int) : Option HighestBet :=
  match old with
  | none => some ⟨uid, mid, choice, amount⟩
  | some r => if amount > r.amount then some ⟨uid, mid, choice, amount⟩ else some r

/-- `place_bet` (src/main.py lines 102-133): raise on an existing
`(message_id, user_id)` row, else insert the bet (with `resolved = 0`) and
opportunistically update the highest-bet record.  The `int(math.floor(amount))`
on entry is the identity on the integer `amount`. -/
def place_bet (mid uid : String) (choice amount : Int) (s : Ledger) :
    Except BetError Ledger :=
  if s.bets.any (fun b => b.message_id == mid && b.user_id == uid) then
    .error .DuplicateBetError
  else
    .ok { s with
          bets := s.bets ++ [⟨mid, uid, choice, amount, false⟩],
          highest := updateHighest s.highest uid mid choice amount }

/-- `get_bets_for_message` (src/main.py lines 135-140). -/
def get_bets_for_message (mid : String) (s : Ledger) : List Bet :=
  s.bets.filter (fun b => b.message_id == mid)

/-- `mark_bets_resolved` (src/main.py lines 142-145):
`UPDATE bets SET resolved=1 WHERE message_id = ?`. -/
def mark_bets_resolved (mid : String) (s : Ledger) : Ledger :=
  { s with
    bets := s.bets.map fun b =>
      if b.message_id == mid then { b with resolved := true } else b }

/-- `DELETE FROM bets WHERE message_id = ?` (src/main.py lines 491-493). -/
def delete_bets_for_message (mid : String) (s : Ledger) : Ledger :=
  { s with bets := s.bets.filter (fun b => !(b.message_id == mid)) }

/-- Python's `int(...)` on a rational: truncation toward zero. -/
def pyInt (q : ℚ) : Int := if q < 0 then ⌈q⌉ else ⌊q⌋

/-- The odds factor of `cmd_resolve` (src/main.py lines 471-475):
`1.0` when either pot is zero, else `max(0.25, min(1.0, total_losing / total_winning))`. -/
def resolveOdds (total_winning total_losing : Int) : ℚ :=
  if total_winning = 0 ∨ total_losing = 0 then 1
  else max (1/4) (min 1 ((total_losing : ℚ) / (total_winning : ℚ)))

/-- A winner's payout (src/main.py line 477):
`payout = b['amount'] + int(b['amount'] * odds)`. -/
def winnerPayout (amount tw tl : Int) : Int :=
  amount + pyInt ((amount : ℚ) * resolveOdds tw tl)

/-- One entry of the `results` list built by `cmd_resolve`
(`outcome` `'won'`/`'lost'` modelled as a `Bool`). -/
structure ResolveResult where
  user_id : String
  won : Bool
  stake : Int
  payout : Int
deriving DecidableEq, Repr

/-- Credit a winner (src/main.py lines 479-481): read (or lazily create) the
balance, then store `cur_bal + payout`. -/
def creditWinner (uid : String) (payout : Int) (s : Ledger) : Ledger :=
  let r := get_user_balance uid s
  (set_user_balance uid ((r.1 + payout : Int) : ℚ) r.2).2

/-- The payout loop of `cmd_resolve` (src/main.py lines 469-485), folding over
the bet list in order. -/
def settleBets (wc tw tl : Int) : List Bet → Ledger → Ledger × List ResolveResult
  | [], s => (s, [])
  | b :: rest, s =>
      if b.choice == wc then
        let payout := winnerPayout b.amount tw tl
        let s1 := creditWinner b.user_id payout s
        let r := settleBets wc tw tl rest s1
        (r.1, ⟨b.user_id, true, b.amount, payout⟩ :: r.2)
      else
        let r := settleBets wc tw tl rest s
        (r.1, ⟨b.user_id, false, b.amount, 0⟩ :: r.2)

/-- `total_winning` (src/main.py line 455). -/
def winningTotal (mid : String) (wc : Int) (s : Ledger) : Int :=
  (((get_bets_for_message mid s).filter (fun b => b.choice == wc)).map Bet.amount).sum

/-- `total_losing` (src/main.py line 456). -/
def losingTotal (mid : String) (wc : Int) (s : Ledger) : Int :=
  (((get_bets_for_message mid s).filter (fun b => !(b.choice == wc))).map Bet.amount).sum

/-- The early `return`s of `cmd_resolve` that precede any write. -/
inductive ResolveError
  | InvalidChoiceError
  | NoBetsError
  | AlreadyResolvedError
deriving DecidableEq, Repr

/-- The ledger portion of `cmd_resolve` (src/main.py lines 424-493): validate
the choice, collect the event's bets, refuse empty or already-resolved sets,
pay each winner `amount + int(amount * odds)`, then mark the event's rows
resolved and delete them.  Channel lookup, message fetching and the permission
check are external glue and are outside the embedding. -/
def cmd_resolve (mid : String) (winning_choice : Int) (s : Ledger) :
    Except ResolveError (Ledger × List ResolveResult) :=
  if ¬ (winning_choice = 1 ∨ winning_choice = 2) then .error .InvalidChoiceError
  else
    let bets := get_bets_for_message mid s
    if bets.isEmpty then .error .NoBetsError
    else if bets.any (fun b => b.resolved) then .error .AlreadyResolvedError
    else
      let tw := winningTotal mid winning_choice s
      let tl := losingTotal mid winning_choice s
      let r := settleBets winning_choice tw tl bets s
      .ok (delete_bets_for_message mid (mark_bets_resolved mid r.1), r.2)

/-- The ledger portion of `cmd_addcoins` (src/main.py lines 417-420): read (or
lazily create) the balance, add the signed `amount`, store the result.  The
second component is the unclamped `newbal` echoed in the confirmation message. -/
def cmd_addcoins (uid : String) (amount : Int) (s : Ledger) : Ledger × Int :=
  let r := get_user_balance uid s
  let newbal := r.1 + amount
  ((set_user_balance uid (newbal : ℚ) r.2).2, newbal)

/-- A ledger-mutating operation of the bot, for stating state invariants.
A raised/propagated error leaves the database unchanged (the Python code
raises before its first write in each of these paths). -/
inductive Op
  | getBalance (uid : String)
  | setBalance (uid : String) (b : ℚ)
  | placeBet (mid uid : String) (choice amount : Int)
  | addcoins (uid : String) (d : Int)
  | resolve (mid : String) (wc : Int)

/-- Apply one operation to the ledger. -/
def applyOp : Op → Ledger → Ledger
  | .getBalance uid, s => (get_user_balance uid s).2
  | .setBalance uid b, s => (set_user_balance uid b s).2
  | .placeBet mid uid c a, s =>
      match place_bet mid uid c a s with
      | .ok s' => s'
      | .error _ => s
  | .addcoins uid d, s => (cmd_addcoins uid d s).1
  | .resolve mid wc, s =>
      match cmd_resolve mid wc s with
      | .ok r => r.1
      | .error _ => s

/-- Apply a sequence of operations in order. -/
def applyOps (ops : List Op) (s : Ledger) : Ledger :=
  ops.foldl (fun t op => applyOp op t) s

/-- At most one bet row per `(message_id, user_id)` pair: the composite
primary key of the `bets` table. -/
def betKeysNodup (s : Ledger) : Prop :=
  (s.bets.map (fun b => (b.message_id, b.user_id))).Nodup

/-- The amount stored in the highest-bet record, if any. -/
def highestAmount (s : Ledger) : Option Int := s.highest.map HighestBet.amount

/-- The balance `cmd_resolve`/`cmd_addcoins` observe for a user: the stored
one, or `DEFAULT_START_BALANCE` if the row is created by the read. -/
def effectiveBalance (s : Ledger) (uid : String) : Int :=
  (lookupBalance s uid).getD DEFAULT_START_BALANCE

/-! ### Association-list lemmas -/

theorem lookupBal_nil (uid : String) : lookupBal [] uid = none := rfl

theorem lookupBal_cons (p : String × Int) (l : List (String × Int)) (uid : String) :
    lookupBal (p :: l) uid = if p.1 = uid then some p.2 else lookupBal l uid := by
  by_cases h : p.1 = uid
  · rw [lookupBal, List.find?_cons_of_pos _ (by simpa using h)]
    simp [h]
  · rw [lookupBal, List.find?_cons_of_neg _ (by simpa using h)]
    simp [h, lookupBal]

theorem upsertBalance_cons (p : String × Int) (l : List (String × Int))
    (uid : String) (v : Int) :
    upsertBalance (p :: l) uid v =
      if p.1 = uid then (uid, v) :: l else p :: upsertBalance l uid v := by
  simp [upsertBalance]

theorem lookupBal_upsert_self (l : List (String × Int)) (uid : String) (v : Int) :
    lookupBal (upsertBalance l uid v) uid = some v := by
  induction l with
  | nil => simp [upsertBalance, lookupBal_cons]
  | cons p rest ih =>
      by_cases h : p.1 = uid
      · simp [upsertBalance_cons, h, lookupBal_cons]
      · simp [upsertBalance_cons, h, lookupBal_cons, ih]

theorem lookupBal_upsert_ne (l : List (String × Int)) (uid w : String) (v : Int)
    (hw : w ≠ uid) : lookupBal (upsertBalance l uid v) w = lookupBal l w := by
  induction l with
  | nil => simp [upsertBalance, lookupBal_cons, lookupBal_nil, Ne.symm hw]
  | cons p rest ih =>
      by_cases h : p.1 = uid
      · have h2 : ¬ p.1 = w := fun hc => hw (hc ▸ h ▸ rfl)
        simp [upsertBalance_cons, h, lookupBal_cons, h2, Ne.symm hw]
      · simp [upsertBalance_cons, h, lookupBal_cons, ih]

theorem mem_upsert {l : List (String × Int)} {uid : String} {v : Int}
    {p : String × Int} (hp : p ∈ upsertBalance l uid v) : p = (uid, v) ∨ p ∈ l := by
  induction l with
  | nil => simpa [upsertBalance] using hp
  | cons q rest ih =>
      by_cases h : q.1 = uid
      · rw [upsertBalance_cons, if_pos h] at hp
        rcases List.mem_cons.mp hp with h1 | h1
        · exact Or.inl h1
        · exact Or.inr (List.mem_cons_of_mem _ h1)
      · rw [upsertBalance_cons, if_neg h] at hp
        rcases List.mem_cons.mp hp with h1 | h1
        · exact Or.inr (h1 ▸ List.mem_cons_self _ _)
        · rcases ih h1 with h2 | h2
          · exact Or.inl h2
          · exact Or.inr (List.mem_cons_of_mem _ h2)

theorem lookupBal_mem {l : List (String × Int)} {uid : String} {b : Int}
    (h : lookupBal l uid = some b) : (uid, b) ∈ l := by
  induction l with
  | nil => simp [lookupBal] at h
  | cons p rest ih =>
      rw [lookupBal_cons] at h
      by_cases hp : p.1 = uid
      · rw [if_pos hp] at h
        have : p = (uid, b) := by
          cases p with
          | mk a c => cases h; simp_all
        exact this ▸ List.mem_cons_self _ _
      · rw [if_neg hp] at h
        exact List.mem_cons_of_mem _ (ih h)

/-! ### `set_user_balance` / `get_user_balance` lemmas -/

theorem set_user_balance_fst (uid : String) (q : ℚ) (s : Ledger) :
    (set_user_balance uid q s).1 = max 1 ⌊q⌋ := rfl

theorem set_user_balance_users (uid : String) (q : ℚ) (s : Ledger) :
    (set_user_balance uid q s).2.users = upsertBalance s.users uid (max 1 ⌊q⌋) := rfl

theorem set_user_balance_bets (uid : String) (q : ℚ) (s : Ledger) :
    (set_user_balance uid q s).2.bets = s.bets := rfl

theorem set_user_balance_highest (uid : String) (q : ℚ) (s : Ledger) :
    (set_user_balance uid q s).2.highest = s.highest := rfl

theorem set_user_balance_lookup_self (uid : String) (q : ℚ) (s : Ledger) :
    lookupBalance (set_user_balance uid q s).2 uid = some (max 1 ⌊q⌋) := by
  simp [lookupBalance, set_user_balance_users, lookupBal_upsert_self]

theorem set_user_balance_lookup_ne (uid w : String) (q : ℚ) (s : Ledger)
    (hw : w ≠ uid) : lookupBalance (set_user_balance uid q s).2 w = lookupBalance s w := by
  simp [lookupBalance, set_user_balance_users, lookupBal_upsert_ne _ _ _ _ hw]

theorem set_user_balance_ge_one (uid : String) (q : ℚ) (s : Ledger)
    (hs : ∀ p ∈ s.users, 1 ≤ p.2) :
    ∀ p ∈ (set_user_balance uid q s).2.users, 1 ≤ p.2 := by
  intro p hp
  rw [set_user_balance_users] at hp
  rcases mem_upsert hp with h | h
  · subst h; exact le_max_left 1 _
  · exact hs p h

theorem get_user_balance_fst (uid : String) (s : Ledger) :
    (get_user_balance uid s).1 = effectiveBalance s uid := by
  unfold get_user_balance effectiveBalance
  cases h : lookupBalance s uid <;> simp [h]

theorem get_user_balance_of_some (uid : String) (s : Ledger) (b : Int)
    (h : lookupBalance s uid = some b) : get_user_balance uid s = (b, s) := by
  unfold get_user_balance
  rw [h]

theorem get_user_balance_lookup_self (uid : String) (s : Ledger) :
    lookupBalance (get_user_balance uid s).2 uid = some (effectiveBalance s uid) := by
  unfold get_user_balance effectiveBalance
  cases h : lookupBalance s uid with
  | none => simp [set_user_balance_lookup_self, DEFAULT_START_BALANCE]
  | some b => simp [h]

theorem get_user_balance_lookup_ne (uid w : String) (s : Ledger) (hw : w ≠ uid) :
    lookupBalance (get_user_balance uid s).2 w = lookupBalance s w := by
  unfold get_user_balance
  cases h : lookupBalance s uid with
  | none => simp [set_user_balance_lookup_ne _ _ _ _ hw]
  | some b => simp

theorem get_user_balance_bets (uid : String) (s : Ledger) :
    (get_user_balance uid s).2.bets = s.bets := by
  unfold get_user_balance
  cases h : lookupBalance s uid <;> simp [set_user_balance_bets]

theorem get_user_balance_highest (uid : String) (s : Ledger) :
    (get_user_balance uid s).2.highest = s.highest := by
  unfold get_user_balance
  cases h : lookupBalance s uid <;> simp [set_user_balance_highest]

theorem get_user_balance_ge_one (uid : String) (s : Ledger)
    (hs : ∀ p ∈ s.users, 1 ≤ p.2) :
    ∀ p ∈ (get_user_balance uid s).2.users, 1 ≤ p.2 := by
  unfold get_user_balance
  cases h : lookupBalance s uid with
  | none => exact set_user_balance_ge_one _ _ _ hs
  | some b => simpa using hs

theorem effectiveBalance_ge_one (uid : String) (s : Ledger)
    (hs : ∀ p ∈ s.users, 1 ≤ p.2) : 1 ≤ effectiveBalance s uid := by
  unfold effectiveBalance
  cases h : lookupBalance s uid with
  | none => simp [DEFAULT_START_BALANCE]
  | some b =>
      have := hs (uid, b) (lookupBal_mem h)
      simpa using this

/-! ### Numeric lemmas about `pyInt` and `resolveOdds` -/

theorem pyInt_of_nonneg {q : ℚ} (h : 0 ≤ q) : pyInt q = ⌊q⌋ := by
  unfold pyInt
  rw [if_neg (not_lt.mpr h)]

theorem pyInt_intCast (a : Int) : pyInt (a : ℚ) = a := by
  unfold pyInt
  split <;> simp

theorem resolveOdds_nonneg (tw tl : Int) : 0 ≤ resolveOdds tw tl := by
  unfold resolveOdds
  split
  · norm_num
  · exact le_trans (by norm_num) (le_max_left _ _)

theorem resolveOdds_pos_pos (tw tl : Int) (htw : 0 < tw) (htl : 0 < tl) :
    resolveOdds tw tl = max (1/4) (min 1 ((tl : ℚ) / (tw : ℚ))) := by
  unfold resolveOdds
  rw [if_neg]
  push_neg
  exact ⟨htw.ne', htl.ne'⟩

theorem resolveOdds_degenerate (tw tl : Int) (h : tw = 0 ∨ tl = 0) :
    resolveOdds tw tl = 1 := by
  unfold resolveOdds
  rw [if_pos h]

theorem winnerPayout_eq_floor (a tw tl : Int) (ha : 0 ≤ a) :
    winnerPayout a tw tl = a + ⌊(a : ℚ) * resolveOdds tw tl⌋ := by
  unfold winnerPayout
  rw [pyInt_of_nonneg (mul_nonneg (by exact_mod_cast ha) (resolveOdds_nonneg tw tl))]

theorem winnerPayout_nonneg (a tw tl : Int) (ha : 0 ≤ a) : 0 ≤ winnerPayout a tw tl := by
  rw [winnerPayout_eq_floor a tw tl ha]
  have : (0:Int) ≤ ⌊(a : ℚ) * resolveOdds tw tl⌋ :=
    Int.floor_nonneg.mpr (mul_nonneg (by exact_mod_cast ha) (resolveOdds_nonneg tw tl))
  omega

theorem winnerPayout_degenerate (a tw tl : Int) (h : tw = 0 ∨ tl = 0) :
    winnerPayout a tw tl = 2 * a := by
  unfold winnerPayout
  rw [resolveOdds_degenerate tw tl h, mul_one, pyInt_intCast]
  ring

/-! ### `creditWinner` lemmas -/

theorem creditWinner_lookup_self (uid : String) (pay : Int) (s : Ledger) :
    lookupBalance (creditWinner uid pay s) uid =
      some (max 1 (effectiveBalance s uid + pay)) := by
  unfold creditWinner
  rw [set_user_balance_lookup_self, get_user_balance_fst]
  norm_num

theorem creditWinner_lookup_ne (uid w : String) (pay : Int) (s : Ledger)
    (hw : w ≠ uid) : lookupBalance (creditWinner uid pay s) w = lookupBalance s w := by
  unfold creditWinner
  rw [set_user_balance_lookup_ne _ _ _ _ hw, get_user_balance_lookup_ne _ _ _ hw]

theorem creditWinner_bets (uid : String) (pay : Int) (s : Ledger) :
    (creditWinner uid pay s).bets = s.bets := by
  unfold creditWinner
  rw [set_user_balance_bets, get_user_balance_bets]

theorem creditWinner_highest (uid : String) (pay : Int) (s : Ledger) :
    (creditWinner uid pay s).highest = s.highest := by
  unfold creditWinner
  rw [set_user_balance_highest, get_user_balance_highest]

theorem creditWinner_ge_one (uid : String) (pay : Int) (s : Ledger)
    (hs : ∀ p ∈ s.users, 1 ≤ p.2) :
    ∀ p ∈ (creditWinner uid pay s).users, 1 ≤ p.2 := by
  unfold creditWinner
  exact set_user_balance_ge_one _ _ _ (get_user_balance_ge_one _ _ hs)

theorem creditWinner_lookup_self_of_ge_one (uid : String) (pay : Int) (s : Ledger)
    (hs : ∀ p ∈ s.users, 1 ≤ p.2) (hpay : 0 ≤ pay) :
    lookupBalance (creditWinner uid pay s) uid =
      some (effectiveBalance s uid + pay) := by
  rw [creditWinner_lookup_self]
  have h1 : 1 ≤ effectiveBalance s uid := effectiveBalance_ge_one uid s hs
  congr 1
  omega

/-! ### `settleBets` lemmas -/

theorem settleBets_nil (wc tw tl : Int) (s : Ledger) :
    settleBets wc tw tl [] s = (s, []) := rfl

theorem settleBets_cons_win (wc tw tl : Int) (b : Bet) (rest : List Bet)
    (s : Ledger) (h : b.choice = wc) :
    settleBets wc tw tl (b :: rest) s =
      ((settleBets wc tw tl rest
          (creditWinner b.user_id (winnerPayout b.amount tw tl) s)).1,
       ⟨b.user_id, true, b.amount, winnerPayout b.amount tw tl⟩ ::
         (settleBets wc tw tl rest
            (creditWinner b.user_id (winnerPayout b.amount tw tl) s)).2) := by
  simp [settleBets, h]

theorem settleBets_cons_lose (wc tw tl : Int) (b : Bet) (rest : List Bet)
    (s : Ledger) (h : ¬ b.choice = wc) :
    settleBets wc tw tl (b :: rest) s =
      ((settleBets wc tw tl rest s).1,
       ⟨b.user_id, false, b.amount, 0⟩ :: (settleBets wc tw tl rest s).2) := by
  simp [settleBets, h]

theorem settleBets_bets (wc tw tl : Int) (bs : List Bet) (s : Ledger) :
    (settleBets wc tw tl bs s).1.bets = s.bets := by
  induction bs generalizing s with
  | nil => rfl
  | cons b rest ih =>
      by_cases h : b.choice = wc
      · rw [settleBets_cons_win wc tw tl b rest s h]
        rw [ih, creditWinner_bets]
      · rw [settleBets_cons_lose wc tw tl b rest s h, ih]

theorem settleBets_highest (wc tw tl : Int) (bs : List Bet) (s : Ledger) :
    (settleBets wc tw tl bs s).1.highest = s.highest := by
  induction bs generalizing s with
  | nil => rfl
  | cons b rest ih =>
      by_cases h : b.choice = wc
      · rw [settleBets_cons_win wc tw tl b rest s h]
        rw [ih, creditWinner_highest]
      · rw [settleBets_cons_lose wc tw tl b rest s h, ih]

theorem settleBets_results (wc tw tl : Int) (bs : List Bet) (s : Ledger) :
    (settleBets wc tw tl bs s).2 =
      bs.map fun b =>
        if b.choice = wc then
          ⟨b.user_id, true, b.amount, winnerPayout b.amount tw tl⟩
        else ⟨b.user_id, false, b.amount, 0⟩ := by
  induction bs generalizing s with
  | nil => rfl
  | cons b rest ih =>
      by_cases h : b.choice = wc
      · rw [settleBets_cons_win wc tw tl b rest s h]
        simp [h, ih]
      · rw [settleBets_cons_lose wc tw tl b rest s h]
        simp [h, ih]

theorem settleBets_ge_one (wc tw tl : Int) (bs : List Bet) (s : Ledger)
    (hs : ∀ p ∈ s.users, 1 ≤ p.2) :
    ∀ p ∈ (settleBets wc tw tl bs s).1.users, 1 ≤ p.2 := by
  induction bs generalizing s with
  | nil => exact hs
  | cons b rest ih =>
      by_cases h : b.choice = wc
      · rw [settleBets_cons_win wc tw tl b rest s h]
        exact ih _ (creditWinner_ge_one _ _ _ hs)
      · rw [settleBets_cons_lose wc tw tl b rest s h]
        exact ih _ hs

theorem settleBets_lookup_untouched (wc tw tl : Int) (bs : List Bet) (s : Ledger)
    (w : String) (hw : ∀ b ∈ bs, b.choice = wc → b.user_id ≠ w) :
    lookupBalance (settleBets wc tw tl bs s).1 w = lookupBalance s w := by
  induction bs generalizing s with
  | nil => rfl
  | cons b rest ih =>
      by_cases h : b.choice = wc
      · rw [settleBets_cons_win wc tw tl b rest s h]
        have hbw : b.user_id ≠ w := hw b (List.mem_cons_self _ _) h
        rw [ih _ fun c hc => hw c (List.mem_cons_of_mem _ hc),
            creditWinner_lookup_ne _ _ _ _ (Ne.symm hbw)]
      · rw [settleBets_cons_lose wc tw tl b rest s h]
        exact ih _ fun c hc => hw c (List.mem_cons_of_mem _ hc)

theorem settleBets_winner_lookup (wc tw tl : Int) (bs : List Bet) (s : Ledger)
    (b : Bet) (hb : b ∈ bs) (hbw : b.choice = wc)
    (hnodup : (bs.map Bet.user_id).Nodup)
    (hs : ∀ p ∈ s.users, 1 ≤ p.2)
    (hamt : ∀ c ∈ bs, 0 ≤ c.amount) :
    lookupBalance (settleBets wc tw tl bs s).1 b.user_id =
      some (effectiveBalance s b.user_id + winnerPayout b.amount tw tl) := by
  induction bs generalizing s with
  | nil => exact absurd hb (List.not_mem_nil b)
  | cons c rest ih =>
      have hnodup' : (rest.map Bet.user_id).Nodup := (List.nodup_cons.mp hnodup).2
      have hcnot : c.user_id ∉ rest.map Bet.user_id := (List.nodup_cons.mp hnodup).1
      rcases List.mem_cons.mp hb with hbc | hbrest
      · subst hbc
        rw [settleBets_cons_win wc tw tl b rest s hbw]
        have huntouched : ∀ d ∈ rest, d.choice = wc → d.user_id ≠ b.user_id := by
          intro d hd _ hdb
          exact hcnot (hdb ▸ List.mem_map_of_mem Bet.user_id hd)
        rw [settleBets_lookup_untouched wc tw tl rest _ _ huntouched]
        exact creditWinner_lookup_self_of_ge_one _ _ _ hs
          (winnerPayout_nonneg _ _ _ (hamt b (List.mem_cons_self _ _)))
      · have hbc : b.user_id ≠ c.user_id := by
          intro hbc
          exact hcnot (hbc ▸ List.mem_map_of_mem Bet.user_id hbrest)
        have hamt' : ∀ d ∈ rest, 0 ≤ d.amount :=
          fun d hd => hamt d (List.mem_cons_of_mem _ hd)
        by_cases h : c.choice = wc
        · rw [settleBets_cons_win wc tw tl c rest s h]
          have heff : effectiveBalance
              (creditWinner c.user_id (winnerPayout c.amount tw tl) s) b.user_id =
              effectiveBalance s b.user_id := by
            unfold effectiveBalance
            rw [creditWinner_lookup_ne _ _ _ _ hbc]
          rw [ih _ hbrest hnodup' (creditWinner_ge_one _ _ _ hs) hamt', heff]
        · rw [settleBets_cons_lose wc tw tl c rest s h]
          exact ih _ hbrest hnodup' hs hamt'

theorem settleBets_loser_lookup (wc tw tl : Int) (bs : List Bet) (s : Ledger)
    (b : Bet) (hb : b ∈ bs) (hbl : ¬ b.choice = wc)
    (hnodup : (bs.map Bet.user_id).Nodup) :
    lookupBalance (settleBets wc tw tl bs s).1 b.user_id = lookupBalance s b.user_id := by
  apply settleBets_lookup_untouched
  intro c hc hcw hcb
  have : c = b := by
    have := List.inj_on_of_nodup_map hnodup
    exact this hc hb hcb
  exact hbl (this ▸ hcw)

/-! ### `mark_bets_resolved` / `delete_bets_for_message` lemmas -/

theorem mark_bets_resolved_users (mid : String) (s : Ledger) :
    (mark_bets_resolved mid s).users = s.users := rfl

theorem mark_bets_resolved_highest (mid : String) (s : Ledger) :
    (mark_bets_resolved mid s).highest = s.highest := rfl

theorem delete_bets_users (mid : String) (s : Ledger) :
    (delete_bets_for_message mid s).users = s.users := rfl

theorem delete_bets_highest (mid : String) (s : Ledger) :
    (delete_bets_for_message mid s).highest = s.highest := rfl

theorem delete_mark_bets (mid : String) (s : Ledger) :
    (delete_bets_for_message mid (mark_bets_resolved mid s)).bets =
      s.bets.filter (fun b => !(b.message_id == mid)) := by
  show (s.bets.map _).filter _ = _
  induction s.bets with
  | nil => rfl
  | cons b rest ih =>
      by_cases h : b.message_id = mid
      · simp only [List.map_cons, List.filter_cons]
        simpa [h] using ih
      · simp only [List.map_cons, List.filter_cons]
        simpa [h] using ih

/-- Extract the success path of `cmd_resolve`: the guards passed and the final
state is the settled one with the event's rows marked and deleted. -/
theorem cmd_resolve_ok_elim {mid : String} {wc : Int} {s s' : Ledger}
    {results : List ResolveResult}
    (h : cmd_resolve mid wc s = .ok (s', results)) :
    (wc = 1 ∨ wc = 2) ∧
    get_bets_for_message mid s ≠ [] ∧
    (∀ b ∈ get_bets_for_message mid s, b.resolved = false) ∧
    s' = delete_bets_for_message mid (mark_bets_resolved mid
          (settleBets wc (winningTotal mid wc s) (losingTotal mid wc s)
            (get_bets_for_message mid s) s).1) ∧
    results = (settleBets wc (winningTotal mid wc s) (losingTotal mid wc s)
          (get_bets_for_message mid s) s).2 := by
  simp only [cmd_resolve] at h
  split_ifs at h with h1 h2 h3
  have h4 := Except.ok.inj h
  refine ⟨h1, ?_, ?_,
    (congrArg Prod.fst h4).symm, (congrArg Prod.snd h4).symm⟩
  · intro hnil
    exact h2 (by simp [hnil])
  · intro b hb
    by_contra hres
    exact h3 (List.any_eq_true.mpr ⟨b, hb, by simpa using hres⟩)

theorem cmd_resolve_no_bets (mid : String) (wc : Int) (s : Ledger)
    (hwc : wc = 1 ∨ wc = 2) (h : get_bets_for_message mid s = []) :
    cmd_resolve mid wc s = .error .NoBetsError := by
  unfold cmd_resolve
  rw [if_neg (not_not_intro hwc)]
  simp [h]

theorem cmd_resolve_already_resolved (mid : String) (wc : Int) (s : Ledger)
    (hwc : wc = 1 ∨ wc = 2) (hne : get_bets_for_message mid s ≠ [])
    (hsome : ∃ b ∈ get_bets_for_message mid s, b.resolved = true) :
    cmd_resolve mid wc s = .error .AlreadyResolvedError := by
  unfold cmd_resolve
  rw [if_neg (not_not_intro hwc)]
  have h1 : (get_bets_for_message mid s).isEmpty = false := by
    cases hbs : get_bets_for_message mid s with
    | nil => exact absurd hbs hne
    | cons c rest => rfl
  have h2 : ((get_bets_for_message mid s).any fun b => b.resolved) = true := by
    obtain ⟨b, hb, hr⟩ := hsome
    exact List.any_eq_true.mpr ⟨b, hb, by simp [hr]⟩
  simp [h1, h2]

theorem applyOp_resolve_of_error (mid : String) (wc : Int) (s : Ledger)
    (e : ResolveError) (h : cmd_resolve mid wc s = .error e) :
    applyOp (.resolve mid wc) s = s := by
  simp [applyOp, h]

theorem applyOp_place_of_error (mid uid : String) (c a : Int) (s : Ledger)
    (e : BetError) (h : place_bet mid uid c a s = .error e) :
    applyOp (.placeBet mid uid c a) s = s := by
  simp [applyOp, h]

theorem resolve_ok_bets {mid : String} {wc : Int} {s s' : Ledger}
    {results : List ResolveResult} (h : cmd_resolve mid wc s = .ok (s', results)) :
    s'.bets = s.bets.filter (fun b => !(b.message_id == mid)) := by
  obtain ⟨_, _, _, hs', _⟩ := cmd_resolve_ok_elim h
  rw [hs', delete_mark_bets, settleBets_bets]

theorem resolve_ok_highest {mid : String} {wc : Int} {s s' : Ledger}
    {results : List ResolveResult} (h : cmd_resolve mid wc s = .ok (s', results)) :
    s'.highest = s.highest := by
  obtain ⟨_, _, _, hs', _⟩ := cmd_resolve_ok_elim h
  rw [hs', delete_bets_highest, mark_bets_resolved_highest, settleBets_highest]

theorem resolve_ok_no_rows {mid : String} {wc : Int} {s s' : Ledger}
    {results : List ResolveResult} (h : cmd_resolve mid wc s = .ok (s', results)) :
    get_bets_for_message mid s' = [] := by
  unfold get_bets_for_message
  rw [resolve_ok_bets h]
  rw [List.filter_filter]
  apply List.filter_eq_nil_iff.mpr
  intro b _
  simp

theorem resolve_ok_other_events {mid : String} {wc : Int} {s s' : Ledger}
    {results : List ResolveResult} (h : cmd_resolve mid wc s = .ok (s', results))
    (mid2 : String) (hm : mid2 ≠ mid) :
    get_bets_for_message mid2 s' = get_bets_for_message mid2 s := by
  unfold get_bets_for_message
  rw [resolve_ok_bets h, List.filter_filter]
  apply List.filter_congr
  intro b _
  by_cases hb : b.message_id = mid2
  · have : ¬ b.message_id = mid := fun hc => hm (hb ▸ hc ▸ rfl)
    simp [hb, this, hm]
  · simp [hb]

theorem place_bet_of_dup (mid uid : String) (c a : Int) (s : Ledger)
    (h : ∃ b ∈ s.bets, b.message_id = mid ∧ b.user_id = uid) :
    place_bet mid uid c a s = .error .DuplicateBetError := by
  unfold place_bet
  rw [if_pos]
  obtain ⟨b, hb, h1, h2⟩ := h
  exact List.any_eq_true.mpr ⟨b, hb, by simp [h1, h2]⟩

theorem place_bet_ok_state {mid uid : String} {c a : Int} {s s' : Ledger}
    (h : place_bet mid uid c a s = .ok s') :
    s'.users = s.users ∧
    s'.bets = s.bets ++ [⟨mid, uid, c, a, false⟩] ∧
    s'.highest = updateHighest s.highest uid mid c a ∧
    (∀ b ∈ s.bets, ¬ (b.message_id = mid ∧ b.user_id = uid)) := by
  unfold place_bet at h
  split_ifs at h with h1
  have h2 := Except.ok.inj h
  refine ⟨(congrArg Ledger.users h2).symm, (congrArg Ledger.bets h2).symm,
    (congrArg Ledger.highest h2).symm, ?_⟩
  intro b hb hc
  exact h1 (List.any_eq_true.mpr ⟨b, hb, by simp [hc.1, hc.2]⟩)

theorem betKeysNodup_place {mid uid : String} {c a : Int} {s s' : Ledger}
    (hnd : betKeysNodup s) (h : place_bet mid uid c a s = .ok s') :
    betKeysNodup s' := by
  obtain ⟨_, hbets, _, hfresh⟩ := place_bet_ok_state h
  unfold betKeysNodup at hnd ⊢
  rw [hbets, List.map_append]
  simp only [List.map_cons, List.map_nil]
  rw [List.nodup_append]
  refine ⟨hnd, List.nodup_singleton _, ?_⟩
  intro k hk hk2
  simp only [List.mem_singleton] at hk2
  obtain ⟨b, hb, hbk⟩ := List.mem_map.mp hk
  subst hk2
  exact hfresh b hb ⟨congrArg Prod.fst hbk, congrArg Prod.snd hbk⟩

theorem addcoins_bets (uid : String) (d : Int) (s : Ledger) :
    (cmd_addcoins uid d s).1.bets = s.bets := by
  unfold cmd_addcoins
  rw [set_user_balance_bets, get_user_balance_bets]

theorem addcoins_highest (uid : String) (d : Int) (s : Ledger) :
    (cmd_addcoins uid d s).1.highest = s.highest := by
  unfold cmd_addcoins
  rw [set_user_balance_highest, get_user_balance_highest]

theorem betKeysNodup_of_bets_eq {s t : Ledger} (h : t.bets = s.bets)
    (hnd : betKeysNodup s) : betKeysNodup t := by
  unfold betKeysNodup at hnd ⊢
  rw [h]
  exact hnd

theorem betKeysNodup_applyOp (op : Op) (s : Ledger) (hnd : betKeysNodup s) :
    betKeysNodup (applyOp op s) := by
  cases op with
  | getBalance uid =>
      exact betKeysNodup_of_bets_eq (get_user_balance_bets uid s) hnd
  | setBalance uid b =>
      exact betKeysNodup_of_bets_eq (set_user_balance_bets uid b s) hnd
  | placeBet mid uid c a =>
      simp only [applyOp]
      cases hpb : place_bet mid uid c a s with
      | ok s' => exact betKeysNodup_place hnd hpb
      | error e => exact hnd
  | addcoins uid d =>
      exact betKeysNodup_of_bets_eq (addcoins_bets uid d s) hnd
  | resolve mid wc =>
      simp only [applyOp]
      cases hr : cmd_resolve mid wc s with
      | ok r =>
          have hbets : r.1.bets = s.bets.filter (fun b => !(b.message_id == mid)) :=
            resolve_ok_bets (show cmd_resolve mid wc s = .ok (r.1, r.2) by rw [hr])
          unfold betKeysNodup at hnd ⊢
          rw [hbets]
          exact hnd.sublist (List.Sublist.map _ (List.filter_sublist s.bets))
      | error e => exact hnd

theorem betKeysNodup_applyOps (ops : List Op) (s : Ledger) (hnd : betKeysNodup s) :
    betKeysNodup (applyOps ops s) := by
  induction ops generalizing s with
  | nil => exact hnd
  | cons op rest ih => exact ih _ (betKeysNodup_applyOp op s hnd)

theorem betKeysNodup_init : betKeysNodup initLedger := by
  simp [betKeysNodup, initLedger]

theorem applyOp_highest_mono (op : Op) (s : Ledger) (r : HighestBet)
    (h : s.highest = some r) :
    ∃ r', (applyOp op s).highest = some r' ∧ r.amount ≤ r'.amount := by
  cases op with
  | getBalance uid =>
      rw [show applyOp (.getBalance uid) s = (get_user_balance uid s).2 from rfl,
        get_user_balance_highest]
      exact ⟨r, h, le_refl _⟩
  | setBalance uid b =>
      rw [show applyOp (.setBalance uid b) s = (set_user_balance uid b s).2 from rfl,
        set_user_balance_highest]
      exact ⟨r, h, le_refl _⟩
  | addcoins uid d =>
      rw [show applyOp (.addcoins uid d) s = (cmd_addcoins uid d s).1 from rfl,
        addcoins_highest]
      exact ⟨r, h, le_refl _⟩
  | placeBet mid uid c a =>
      simp only [applyOp]
      cases hpb : place_bet mid uid c a s with
      | ok s' =>
          obtain ⟨_, _, hh, _⟩ := place_bet_ok_state hpb
          rw [hh, h]
          unfold updateHighest
          by_cases hgt : a > r.amount
          · exact ⟨⟨uid, mid, c, a⟩, by simp [hgt], le_of_lt hgt⟩
          · exact ⟨r, by simp [hgt], le_refl _⟩
      | error e => exact ⟨r, h, le_refl _⟩
  | resolve mid wc =>
      simp only [applyOp]
      cases hr : cmd_resolve mid wc s with
      | ok out =>
          rw [resolve_ok_highest (show cmd_resolve mid wc s = .ok (out.1, out.2) by rw [hr])]
          exact ⟨r, h, le_refl _⟩
      | error e => exact ⟨r, h, le_refl _⟩

theorem applyOps_highest_mono (ops : List Op) (s : Ledger) (r : HighestBet)
    (h : s.highest = some r) :
    ∃ r', (applyOps ops s).highest = some r' ∧ r.amount ≤ r'.amount := by
  induction ops generalizing s r with
  | nil => exact ⟨r, h, le_refl _⟩
  | cons op rest ih =>
      obtain ⟨r1, h1, hle1⟩ := applyOp_highest_mono op s r h
      obtain ⟨r2, h2, hle2⟩ := ih _ _ h1
      exact ⟨r2, h2, le_trans hle1 hle2⟩


/-! ### Claim theorems -/

theorem cmd_addcoins_snd (uid : String) (d : Int) (s : Ledger) :
    (cmd_addcoins uid d s).2 = (get_user_balance uid s).1 + d := rfl

theorem cmd_addcoins_fst (uid : String) (d : Int) (s : Ledger) :
    (cmd_addcoins uid d s).1 =
      (set_user_balance uid (((get_user_balance uid s).1 + d : Int) : ℚ)
        (get_user_balance uid s).2).2 := rfl

/-- C4: every balance write with requested value `b` stores `max 1 ⌊b⌋`, so the
stored value is at least 1, and after the write every account balance that was
at least 1 stays at least 1. -/
theorem claim_C4_balance_write_clamped (uid : String) (b : ℚ) (s : Ledger)
    (hs : ∀ p ∈ s.users, 1 ≤ p.2) :
    (set_user_balance uid b s).1 = max 1 ⌊b⌋ ∧
    lookupBalance (set_user_balance uid b s).2 uid = some (max 1 ⌊b⌋) ∧
    1 ≤ (set_user_balance uid b s).1 ∧
    ∀ p ∈ (set_user_balance uid b s).2.users, 1 ≤ p.2 := by
  refine ⟨set_user_balance_fst uid b s, set_user_balance_lookup_self uid b s, ?_,
    set_user_balance_ge_one uid b s hs⟩
  rw [set_user_balance_fst]
  exact le_max_left 1 _

/-- Witness for C4 at the concrete write of `-5` into the empty ledger:
the stored value is `max 1 ⌊-5⌋ = 1`. -/
theorem claim_C4_balance_write_clamped_witness :
    (∀ p ∈ initLedger.users, 1 ≤ p.2) ∧
    (set_user_balance "u" (-5 : ℚ) initLedger).1 = max 1 ⌊(-5 : ℚ)⌋ ∧
    lookupBalance (set_user_balance "u" (-5 : ℚ) initLedger).2 "u" =
      some (max 1 ⌊(-5 : ℚ)⌋) ∧
    max 1 ⌊(-5 : ℚ)⌋ = (1 : Int) := by
  have hs : ∀ p ∈ initLedger.users, 1 ≤ p.2 := by
    intro p hp
    simp [initLedger] at hp
  have h := claim_C4_balance_write_clamped "u" (-5) initLedger hs
  exact ⟨hs, h.1, h.2.1, by norm_num⟩

/-- C9: the first balance query for a user creates the account with the default
starting balance 100 and returns it; any subsequent query returns the stored
balance and leaves the state untouched. -/
theorem claim_C9_lazy_account_creation (uid : String) (s : Ledger) :
    (lookupBalance s uid = none →
        (get_user_balance uid s).1 = 100 ∧
        lookupBalance (get_user_balance uid s).2 uid = some 100 ∧
        get_user_balance uid (get_user_balance uid s).2 =
          (100, (get_user_balance uid s).2)) ∧
    (∀ b, lookupBalance s uid = some b → get_user_balance uid s = (b, s)) := by
  constructor
  · intro hnone
    have h1 : (get_user_balance uid s).1 = 100 := by
      rw [get_user_balance_fst]
      unfold effectiveBalance
      rw [hnone]
      rfl
    have h2 : lookupBalance (get_user_balance uid s).2 uid = some 100 := by
      rw [get_user_balance_lookup_self]
      unfold effectiveBalance
      rw [hnone]
      rfl
    exact ⟨h1, h2, get_user_balance_of_some _ _ _ h2⟩
  · intro b hb
    exact get_user_balance_of_some uid s b hb

/-- Witness for C9: a fresh user in the empty ledger gets 100, and a stored
balance of 7 is returned unchanged. -/
theorem claim_C9_lazy_account_creation_witness :
    lookupBalance initLedger "u" = none ∧
    (get_user_balance "u" initLedger).1 = 100 ∧
    lookupBalance (get_user_balance "u" initLedger).2 "u" = some 100 ∧
    get_user_balance "u" (get_user_balance "u" initLedger).2 =
      (100, (get_user_balance "u" initLedger).2) ∧
    get_user_balance "v" (⟨[("v", 7)], [], none⟩ : Ledger) =
      (7, (⟨[("v", 7)], [], none⟩ : Ledger)) := by
  have hnone : lookupBalance initLedger "u" = none := rfl
  have h := (claim_C9_lazy_account_creation "u" initLedger).1 hnone
  have hv : lookupBalance (⟨[("v", 7)], [], none⟩ : Ledger) "v" = some 7 := by
    simp [lookupBalance, lookupBal]
  exact ⟨hnone, h.1, h.2.1, h.2.2, (claim_C9_lazy_account_creation "v" _).2 7 hv⟩

/-- C10: `cmd_addcoins` reports the unclamped `old + d` in its confirmation
message, while the stored balance afterwards is `max 1 (old + d)`. -/
theorem claim_C10_addcoins_clamped (uid : String) (d : Int) (s : Ledger) :
    (cmd_addcoins uid d s).2 = effectiveBalance s uid + d ∧
    lookupBalance (cmd_addcoins uid d s).1 uid =
      some (max 1 (effectiveBalance s uid + d)) := by
  constructor
  · rw [cmd_addcoins_snd, get_user_balance_fst]
  · rw [cmd_addcoins_fst, set_user_balance_lookup_self, get_user_balance_fst]
    norm_num


/-- C5: at most one bet row per `(event, user)` pair: a duplicate placement
fails with the duplicate-bet error and leaves the ledger unchanged, every
operation preserves uniqueness of the composite key, and every operation
sequence from the empty database keeps it. -/
theorem claim_C5_one_bet_per_event_user :
    (∀ mid uid c a s, (∃ b ∈ s.bets, b.message_id = mid ∧ b.user_id = uid) →
        place_bet mid uid c a s = .error .DuplicateBetError ∧
        applyOp (.placeBet mid uid c a) s = s) ∧
    (∀ op s, betKeysNodup s → betKeysNodup (applyOp op s)) ∧
    (∀ ops, betKeysNodup (applyOps ops initLedger)) := by
  refine ⟨?_, betKeysNodup_applyOp,
    fun ops => betKeysNodup_applyOps ops initLedger betKeysNodup_init⟩
  intro mid uid c a s h
  have he := place_bet_of_dup mid uid c a s h
  exact ⟨he, applyOp_place_of_error _ _ _ _ _ _ he⟩

/-- Witness for C5: a second bet on `("m", "u")` fails and changes nothing,
and the key-uniqueness invariant holds on concrete states. -/
theorem claim_C5_one_bet_per_event_user_witness :
    place_bet "m" "u" 2 7 (⟨[], [⟨"m", "u", 1, 5, false⟩], none⟩ : Ledger) =
      .error .DuplicateBetError ∧
    applyOp (.placeBet "m" "u" 2 7) (⟨[], [⟨"m", "u", 1, 5, false⟩], none⟩ : Ledger) =
      (⟨[], [⟨"m", "u", 1, 5, false⟩], none⟩ : Ledger) ∧
    betKeysNodup
      (applyOp (.placeBet "m2" "u" 1 3) (⟨[], [⟨"m", "u", 1, 5, false⟩], none⟩ : Ledger)) ∧
    betKeysNodup (applyOps [.placeBet "m" "u" 1 5, .placeBet "m" "u" 2 7] initLedger) := by
  have h := claim_C5_one_bet_per_event_user
  have hdup : ∃ b ∈ (⟨[], [⟨"m", "u", 1, 5, false⟩], none⟩ : Ledger).bets,
      b.message_id = "m" ∧ b.user_id = "u" :=
    ⟨⟨"m", "u", 1, 5, false⟩, List.mem_cons_self _ _, rfl, rfl⟩
  have h1 := h.1 "m" "u" 2 7 _ hdup
  have hnd : betKeysNodup (⟨[], [⟨"m", "u", 1, 5, false⟩], none⟩ : Ledger) := by
    simp [betKeysNodup]
  exact ⟨h1.1, h1.2, h.2.1 _ _ hnd, h.2.2 _⟩

/-- C6: resolving with no bets fails with `NoBetsError`, resolving a set that
contains an already-resolved bet fails with `AlreadyResolvedError`, both
without touching the ledger; and after a successful resolve a second resolve
of the same event fails (no bets remain) and changes nothing, so no balance is
double-credited. -/
theorem claim_C6_resolve_guards :
    (∀ mid wc s, (wc = 1 ∨ wc = 2) → get_bets_for_message mid s = [] →
        cmd_resolve mid wc s = .error .NoBetsError ∧
        applyOp (.resolve mid wc) s = s) ∧
    (∀ mid wc s, (wc = 1 ∨ wc = 2) → get_bets_for_message mid s ≠ [] →
        (∃ b ∈ get_bets_for_message mid s, b.resolved = true) →
        cmd_resolve mid wc s = .error .AlreadyResolvedError ∧
        applyOp (.resolve mid wc) s = s) ∧
    (∀ mid wc wc2 s s' results, cmd_resolve mid wc s = .ok (s', results) →
        (wc2 = 1 ∨ wc2 = 2) →
        cmd_resolve mid wc2 s' = .error .NoBetsError ∧
        applyOp (.resolve mid wc2) s' = s') := by
  refine ⟨?_, ?_, ?_⟩
  · intro mid wc s hwc hnil
    have he := cmd_resolve_no_bets mid wc s hwc hnil
    exact ⟨he, applyOp_resolve_of_error _ _ _ _ he⟩
  · intro mid wc s hwc hne hsome
    have he := cmd_resolve_already_resolved mid wc s hwc hne hsome
    exact ⟨he, applyOp_resolve_of_error _ _ _ _ he⟩
  · intro mid wc wc2 s s' results hok hwc2
    have he := cmd_resolve_no_bets mid wc2 s' hwc2 (resolve_ok_no_rows hok)
    exact ⟨he, applyOp_resolve_of_error _ _ _ _ he⟩

/-- C7: a successful resolution leaves zero bet rows for the event, leaves
every other event's rows unchanged, and leaves the highest-bet record
unchanged. -/
theorem claim_C7_resolution_frame (mid : String) (wc : Int) (s s' : Ledger)
    (results : List ResolveResult)
    (hres : cmd_resolve mid wc s = .ok (s', results)) :
    get_bets_for_message mid s' = [] ∧
    s'.bets = s.bets.filter (fun b => !(b.message_id == mid)) ∧
    s'.highest = s.highest ∧
    ∀ mid2, mid2 ≠ mid → get_bets_for_message mid2 s' = get_bets_for_message mid2 s :=
  ⟨resolve_ok_no_rows hres, resolve_ok_bets hres, resolve_ok_highest hres,
    fun mid2 hm => resolve_ok_other_events hres mid2 hm⟩

/-- C8: the highest-bet record is overwritten exactly when it is absent or the
new amount strictly exceeds the stored maximum (a tie keeps the old record),
and the stored maximum is non-decreasing across any operation sequence. -/
theorem claim_C8_highest_bet_record :
    (∀ mid uid c a s s', place_bet mid uid c a s = .ok s' → s.highest = none →
        s'.highest = some ⟨uid, mid, c, a⟩) ∧
    (∀ mid uid c a s s' r, place_bet mid uid c a s = .ok s' → s.highest = some r →
        (r.amount < a → s'.highest = some ⟨uid, mid, c, a⟩) ∧
        (a ≤ r.amount → s'.highest = some r)) ∧
    (∀ ops s r, s.highest = some r →
        ∃ r', (applyOps ops s).highest = some r' ∧ r.amount ≤ r'.amount) := by
  refine ⟨?_, ?_, applyOps_highest_mono⟩
  · intro mid uid c a s s' hok hnone
    obtain ⟨_, _, hh, _⟩ := place_bet_ok_state hok
    rw [hh, hnone]
    rfl
  · intro mid uid c a s s' r hok hsome
    obtain ⟨_, _, hh, _⟩ := place_bet_ok_state hok
    constructor
    · intro hlt
      rw [hh, hsome]
      simp only [updateHighest]
      rw [if_pos hlt]
    · intro hle
      rw [hh, hsome]
      simp only [updateHighest]
      rw [if_neg (not_lt.mpr hle)]


/-- Witness for C6: the three guard behaviours at concrete states, including a
second resolve after a concrete successful settlement. -/
theorem claim_C6_resolve_guards_witness :
    (cmd_resolve "m" 1 initLedger = .error .NoBetsError ∧
      applyOp (.resolve "m" 1) initLedger = initLedger) ∧
    (cmd_resolve "m" 1 (⟨[], [⟨"m", "u", 1, 5, true⟩], none⟩ : Ledger) =
        .error .AlreadyResolvedError ∧
      applyOp (.resolve "m" 1) (⟨[], [⟨"m", "u", 1, 5, true⟩], none⟩ : Ledger) =
        (⟨[], [⟨"m", "u", 1, 5, true⟩], none⟩ : Ledger)) ∧
    (cmd_resolve "m" 2 (⟨[("u1", 160)], [], none⟩ : Ledger) = .error .NoBetsError ∧
      applyOp (.resolve "m" 2) (⟨[("u1", 160)], [], none⟩ : Ledger) =
        (⟨[("u1", 160)], [], none⟩ : Ledger)) := by
  have h := claim_C6_resolve_guards
  have h1 := h.1 "m" 1 initLedger (Or.inl rfl) rfl
  have hb : get_bets_for_message "m" (⟨[], [⟨"m", "u", 1, 5, true⟩], none⟩ : Ledger) =
      [⟨"m", "u", 1, 5, true⟩] := rfl
  have h2 := h.2.1 "m" 1 (⟨[], [⟨"m", "u", 1, 5, true⟩], none⟩ : Ledger) (Or.inl rfl)
    (by rw [hb]; exact List.cons_ne_nil _ _)
    ⟨⟨"m", "u", 1, 5, true⟩, by rw [hb]; exact List.mem_cons_self _ _, rfl⟩
  have hok : cmd_resolve "m" 1 (⟨[], [⟨"m", "u1", 1, 30, false⟩], none⟩ : Ledger) =
      .ok (⟨[("u1", 160)], [], none⟩, [⟨"u1", true, 30, 60⟩]) := by
    norm_num +decide [cmd_resolve, winningTotal, losingTotal, get_bets_for_message,
      settleBets, creditWinner, get_user_balance, set_user_balance, lookupBalance,
      lookupBal, upsertBalance, winnerPayout, pyInt, resolveOdds, mark_bets_resolved,
      delete_bets_for_message, DEFAULT_START_BALANCE]
  have h3 := h.2.2 "m" 1 2 _ _ _ hok (Or.inr rfl)
  exact ⟨h1, h2, h3⟩

/-- Witness for C7 at a concrete settlement of event `"m"` while event `"k"`
has a bet and a highest-bet record exists: the `"m"` rows are gone, the `"k"`
row and the record survive. -/
theorem claim_C7_resolution_frame_witness :
    get_bets_for_message "m"
      (⟨[("u1", 160)], [⟨"k", "u2", 2, 10, false⟩], some ⟨"u1", "m", 1, 30⟩⟩ : Ledger) = [] ∧
    (⟨[("u1", 160)], [⟨"k", "u2", 2, 10, false⟩], some ⟨"u1", "m", 1, 30⟩⟩ : Ledger).bets =
      (⟨[], [⟨"m", "u1", 1, 30, false⟩, ⟨"k", "u2", 2, 10, false⟩],
        some ⟨"u1", "m", 1, 30⟩⟩ : Ledger).bets.filter (fun b => !(b.message_id == "m")) ∧
    (⟨[("u1", 160)], [⟨"k", "u2", 2, 10, false⟩], some ⟨"u1", "m", 1, 30⟩⟩ : Ledger).highest =
      (⟨[], [⟨"m", "u1", 1, 30, false⟩, ⟨"k", "u2", 2, 10, false⟩],
        some ⟨"u1", "m", 1, 30⟩⟩ : Ledger).highest ∧
    get_bets_for_message "k"
      (⟨[("u1", 160)], [⟨"k", "u2", 2, 10, false⟩], some ⟨"u1", "m", 1, 30⟩⟩ : Ledger) =
    get_bets_for_message "k"
      (⟨[], [⟨"m", "u1", 1, 30, false⟩, ⟨"k", "u2", 2, 10, false⟩],
        some ⟨"u1", "m", 1, 30⟩⟩ : Ledger) := by
  have hok : cmd_resolve "m" 1
      (⟨[], [⟨"m", "u1", 1, 30, false⟩, ⟨"k", "u2", 2, 10, false⟩],
        some ⟨"u1", "m", 1, 30⟩⟩ : Ledger) =
      .ok (⟨[("u1", 160)], [⟨"k", "u2", 2, 10, false⟩], some ⟨"u1", "m", 1, 30⟩⟩,
        [⟨"u1", true, 30, 60⟩]) := by
    norm_num +decide [cmd_resolve, winningTotal, losingTotal, get_bets_for_message,
      settleBets, creditWinner, get_user_balance, set_user_balance, lookupBalance,
      lookupBal, upsertBalance, winnerPayout, pyInt, resolveOdds, mark_bets_resolved,
      delete_bets_for_message, DEFAULT_START_BALANCE]
  have h := claim_C7_resolution_frame "m" 1 _ _ _ hok
  exact ⟨h.1, h.2.1, h.2.2.1, h.2.2.2 "k" (by decide)⟩

/-- Witness for C8: the first bet creates the record, a tie of 5 against a
stored maximum of 5 keeps the old record, and the maximum never decreases
along a concrete operation sequence. -/
theorem claim_C8_highest_bet_record_witness :
    (⟨[], [⟨"m", "u", 1, 5, false⟩], some ⟨"u", "m", 1, 5⟩⟩ : Ledger).highest =
      some ⟨"u", "m", 1, 5⟩ ∧
    (⟨[], [⟨"m", "u", 1, 5, false⟩, ⟨"m2", "v", 2, 5, false⟩],
        some ⟨"u", "m", 1, 5⟩⟩ : Ledger).highest = some ⟨"u", "m", 1, 5⟩ ∧
    (∃ r', (applyOps [.placeBet "m3" "w" 1 3]
        (⟨[], [⟨"m", "u", 1, 5, false⟩], some ⟨"u", "m", 1, 5⟩⟩ : Ledger)).highest =
        some r' ∧ (5 : Int) ≤ r'.amount) := by
  have h := claim_C8_highest_bet_record
  have hok1 : place_bet "m" "u" 1 5 initLedger =
      .ok (⟨[], [⟨"m", "u", 1, 5, false⟩], some ⟨"u", "m", 1, 5⟩⟩ : Ledger) := rfl
  have hc1 := h.1 "m" "u" 1 5 initLedger _ hok1 rfl
  have hok2 : place_bet "m2" "v" 2 5
      (⟨[], [⟨"m", "u", 1, 5, false⟩], some ⟨"u", "m", 1, 5⟩⟩ : Ledger) =
      .ok (⟨[], [⟨"m", "u", 1, 5, false⟩, ⟨"m2", "v", 2, 5, false⟩],
        some ⟨"u", "m", 1, 5⟩⟩ : Ledger) := rfl
  have hc2 := (h.2.1 "m2" "v" 2 5 _ _ ⟨"u", "m", 1, 5⟩ hok2 rfl).2 (le_refl 5)
  have hc3 := h.2.2 [.placeBet "m3" "w" 1 3]
    (⟨[], [⟨"m", "u", 1, 5, false⟩], some ⟨"u", "m", 1, 5⟩⟩ : Ledger) ⟨"u", "m", 1, 5⟩ rfl
  exact ⟨hc1, hc2, hc3⟩

/-- C2: when either total pot is zero the odds factor is 1 and every winner in
the settlement results is paid exactly twice the stake. -/
theorem claim_C2_degenerate_pot_doubles (mid : String) (wc : Int) (s s' : Ledger)
    (results : List ResolveResult)
    (hres : cmd_resolve mid wc s = .ok (s', results))
    (hdeg : winningTotal mid wc s = 0 ∨ losingTotal mid wc s = 0) :
    resolveOdds (winningTotal mid wc s) (losingTotal mid wc s) = 1 ∧
    ∀ r ∈ results, r.won = true → r.payout = 2 * r.stake := by
  obtain ⟨hwc, hne, hres0, hs', hresults⟩ := cmd_resolve_ok_elim hres
  refine ⟨resolveOdds_degenerate _ _ hdeg, ?_⟩
  intro r hr hw
  rw [hresults, settleBets_results] at hr
  obtain ⟨b, hb, hbr⟩ := List.mem_map.mp hr
  by_cases h : b.choice = wc
  · rw [if_pos h] at hbr
    subst hbr
    simpa using winnerPayout_degenerate b.amount _ _ hdeg
  · rw [if_neg h] at hbr
    subst hbr
    simp at hw

/-- Witness for C2: a lone bet of 30 (no losing pot) pays 60 = 2 × 30. -/
theorem claim_C2_degenerate_pot_doubles_witness :
    resolveOdds (winningTotal "m" 1 (⟨[], [⟨"m", "u1", 1, 30, false⟩], none⟩ : Ledger))
      (losingTotal "m" 1 (⟨[], [⟨"m", "u1", 1, 30, false⟩], none⟩ : Ledger)) = 1 ∧
    (⟨"u1", true, 30, 60⟩ : ResolveResult).payout =
      2 * (⟨"u1", true, 30, 60⟩ : ResolveResult).stake := by
  have hok : cmd_resolve "m" 1 (⟨[], [⟨"m", "u1", 1, 30, false⟩], none⟩ : Ledger) =
      .ok (⟨[("u1", 160)], [], none⟩, [⟨"u1", true, 30, 60⟩]) := by
    norm_num +decide [cmd_resolve, winningTotal, losingTotal, get_bets_for_message,
      settleBets, creditWinner, get_user_balance, set_user_balance, lookupBalance,
      lookupBal, upsertBalance, winnerPayout, pyInt, resolveOdds, mark_bets_resolved,
      delete_bets_for_message, DEFAULT_START_BALANCE]
  have h := claim_C2_degenerate_pot_doubles "m" 1 _ _ _ hok (Or.inr rfl)
  exact ⟨h.1, h.2 _ (List.mem_cons_self _ _) rfl⟩

/-- C1: with both pots positive, settlement pays each winning bettor exactly
`amount + ⌊amount * clamp(total_losing / total_winning, 1/4, 1)⌋`, credited
onto their balance, and pays each losing bettor 0 without touching their
stored balance. -/
theorem claim_C1_parimutuel_payout (mid : String) (wc : Int) (s s' : Ledger)
    (results : List ResolveResult)
    (hres : cmd_resolve mid wc s = .ok (s', results))
    (hnodup : ((get_bets_for_message mid s).map Bet.user_id).Nodup)
    (hamt : ∀ b ∈ get_bets_for_message mid s, 1 ≤ b.amount)
    (hbal : ∀ p ∈ s.users, 1 ≤ p.2)
    (htw : 0 < winningTotal mid wc s) (htl : 0 < losingTotal mid wc s) :
    ∀ b ∈ get_bets_for_message mid s,
      (b.choice = wc →
        lookupBalance s' b.user_id =
          some (effectiveBalance s b.user_id + (b.amount +
            ⌊(b.amount : ℚ) * (max (1/4) (min 1
              ((losingTotal mid wc s : ℚ) / (winningTotal mid wc s : ℚ))))⌋)) ∧
        (⟨b.user_id, true, b.amount, b.amount +
            ⌊(b.amount : ℚ) * (max (1/4) (min 1
              ((losingTotal mid wc s : ℚ) / (winningTotal mid wc s : ℚ))))⌋⟩ :
          ResolveResult) ∈ results) ∧
      (¬ b.choice = wc →
        lookupBalance s' b.user_id = lookupBalance s b.user_id ∧
        (⟨b.user_id, false, b.amount, 0⟩ : ResolveResult) ∈ results) := by
  obtain ⟨hwc, hne, hres0, hs', hresults⟩ := cmd_resolve_ok_elim hres
  have hodds := resolveOdds_pos_pos _ _ htw htl
  have hpay : ∀ b : Bet, b ∈ get_bets_for_message mid s →
      winnerPayout b.amount (winningTotal mid wc s) (losingTotal mid wc s) =
        b.amount + ⌊(b.amount : ℚ) * (max (1/4) (min 1
          ((losingTotal mid wc s : ℚ) / (winningTotal mid wc s : ℚ))))⌋ := by
    intro b hb
    rw [winnerPayout_eq_floor _ _ _ (le_trans zero_le_one (hamt b hb)), hodds]
  have hamt0 : ∀ c ∈ get_bets_for_message mid s, 0 ≤ c.amount :=
    fun c hc => le_trans zero_le_one (hamt c hc)
  have husers : ∀ uid, lookupBalance (delete_bets_for_message mid (mark_bets_resolved mid
      (settleBets wc (winningTotal mid wc s) (losingTotal mid wc s)
        (get_bets_for_message mid s) s).1)) uid =
      lookupBalance (settleBets wc (winningTotal mid wc s) (losingTotal mid wc s)
        (get_bets_for_message mid s) s).1 uid := fun uid => rfl
  intro b hb
  constructor
  · intro hbw
    constructor
    · rw [hs', husers,
        settleBets_winner_lookup _ _ _ _ _ b hb hbw hnodup hbal hamt0, hpay b hb]
    · rw [hresults, settleBets_results]
      exact List.mem_map.mpr ⟨b, hb, by rw [if_pos hbw, hpay b hb]⟩
  · intro hbl
    constructor
    · rw [hs', husers]
      exact settleBets_loser_lookup _ _ _ _ _ b hb hbl hnodup
    · rw [hresults, settleBets_results]
      exact List.mem_map.mpr ⟨b, hb, by rw [if_neg hbl]⟩


/-- Witness for C1: two bets of 30 (side 1) and 100 (side 2); resolving with
side 1 credits the winner's created account to 160 and leaves the loser's
(absent) account row untouched. -/
theorem claim_C1_parimutuel_payout_witness :
    lookupBalance (⟨[("u1", 160)], [], none⟩ : Ledger) "u1" =
      some (effectiveBalance (⟨[], [⟨"m", "u1", 1, 30, false⟩, ⟨"m", "u2", 2, 100, false⟩], none⟩ : Ledger) "u1" + (30 + ⌊(30 : ℚ) * (max (1/4) (min 1
        ((losingTotal "m" 1 (⟨[], [⟨"m", "u1", 1, 30, false⟩, ⟨"m", "u2", 2, 100, false⟩], none⟩ : Ledger) : ℚ) /
          (winningTotal "m" 1 (⟨[], [⟨"m", "u1", 1, 30, false⟩, ⟨"m", "u2", 2, 100, false⟩], none⟩ : Ledger) : ℚ))))⌋)) ∧
    lookupBalance (⟨[("u1", 160)], [], none⟩ : Ledger) "u2" =
      lookupBalance (⟨[], [⟨"m", "u1", 1, 30, false⟩, ⟨"m", "u2", 2, 100, false⟩], none⟩ : Ledger) "u2" ∧
    (⟨"u1", true, 30, 30 + ⌊(30 : ℚ) * (max (1/4) (min 1
        ((losingTotal "m" 1 (⟨[], [⟨"m", "u1", 1, 30, false⟩, ⟨"m", "u2", 2, 100, false⟩], none⟩ : Ledger) : ℚ) /
          (winningTotal "m" 1 (⟨[], [⟨"m", "u1", 1, 30, false⟩, ⟨"m", "u2", 2, 100, false⟩], none⟩ : Ledger) : ℚ))))⌋⟩ : ResolveResult) ∈
      ([⟨"u1", true, 30, 60⟩, ⟨"u2", false, 100, 0⟩] : List ResolveResult) ∧
    (⟨"u2", false, 100, 0⟩ : ResolveResult) ∈
      ([⟨"u1", true, 30, 60⟩, ⟨"u2", false, 100, 0⟩] : List ResolveResult) := by
  have hok : cmd_resolve "m" 1 (⟨[], [⟨"m", "u1", 1, 30, false⟩, ⟨"m", "u2", 2, 100, false⟩], none⟩ : Ledger) =
      .ok (⟨[("u1", 160)], [], none⟩,
        [⟨"u1", true, 30, 60⟩, ⟨"u2", false, 100, 0⟩]) := by
    norm_num +decide [cmd_resolve, winningTotal, losingTotal, get_bets_for_message,
      settleBets, creditWinner, get_user_balance, set_user_balance, lookupBalance,
      lookupBal, upsertBalance, winnerPayout, pyInt, resolveOdds, mark_bets_resolved,
      delete_bets_for_message, DEFAULT_START_BALANCE]
  have hbets : get_bets_for_message "m" (⟨[], [⟨"m", "u1", 1, 30, false⟩, ⟨"m", "u2", 2, 100, false⟩], none⟩ : Ledger) =
      [⟨"m", "u1", 1, 30, false⟩, ⟨"m", "u2", 2, 100, false⟩] := rfl
  have hnodup : ((get_bets_for_message "m" (⟨[], [⟨"m", "u1", 1, 30, false⟩, ⟨"m", "u2", 2, 100, false⟩], none⟩ : Ledger)).map Bet.user_id).Nodup := by
    rw [hbets]
    decide
  have hamt : ∀ b ∈ get_bets_for_message "m" (⟨[], [⟨"m", "u1", 1, 30, false⟩, ⟨"m", "u2", 2, 100, false⟩], none⟩ : Ledger), 1 ≤ b.amount := by
    rw [hbets]
    decide
  have hbal : ∀ p ∈ (⟨[], [⟨"m", "u1", 1, 30, false⟩, ⟨"m", "u2", 2, 100, false⟩], none⟩ : Ledger).users, 1 ≤ p.2 := by
    intro p hp
    simp at hp
  have h := claim_C1_parimutuel_payout "m" 1 _ _ _ hok hnodup hamt hbal
    (by decide) (by decide)
  have hw := (h ⟨"m", "u1", 1, 30, false⟩ (by rw [hbets]; exact List.mem_cons_self _ _)).1 rfl
  have hl := (h ⟨"m", "u2", 2, 100, false⟩
    (by rw [hbets]; exact List.mem_cons_of_mem _ (List.mem_cons_self _ _))).2 (by decide)
  exact ⟨hw.1, hl.1, hw.2, hl.2⟩


/-- C3 counterexample: at the spec's first test vector (total_winning = 300,
total_losing = 100) the clamped ratio is exactly 1/3 and a winner staking 30
receives 30 + ⌊30 × (1/3)⌋ = 40, not the claimed 39. -/
theorem claim_C3_spec_vector_false :
    cmd_resolve "m" 1
      (⟨[], [⟨"m", "u1", 1, 30, false⟩, ⟨"m", "u2", 1, 270, false⟩,
        ⟨"m", "u3", 2, 100, false⟩], none⟩ : Ledger) =
      .ok (⟨[("u1", 140), ("u2", 460)], [], none⟩,
        [⟨"u1", true, 30, 40⟩, ⟨"u2", true, 270, 360⟩, ⟨"u3", false, 100, 0⟩]) ∧
    winningTotal "m" 1
      (⟨[], [⟨"m", "u1", 1, 30, false⟩, ⟨"m", "u2", 1, 270, false⟩,
        ⟨"m", "u3", 2, 100, false⟩], none⟩ : Ledger) = 300 ∧
    losingTotal "m" 1
      (⟨[], [⟨"m", "u1", 1, 30, false⟩, ⟨"m", "u2", 1, 270, false⟩,
        ⟨"m", "u3", 2, 100, false⟩], none⟩ : Ledger) = 100 ∧
    winnerPayout 30 300 100 = 40 ∧
    ¬ winnerPayout 30 300 100 = 39 := by
  have hp : winnerPayout 30 300 100 = 40 := by
    norm_num [winnerPayout, pyInt, resolveOdds]
  refine ⟨?_, rfl, rfl, hp, by rw [hp]; decide⟩
  norm_num +decide [cmd_resolve, winningTotal, losingTotal, get_bets_for_message,
      settleBets, creditWinner, get_user_balance, set_user_balance, lookupBalance,
      lookupBal, upsertBalance, winnerPayout, pyInt, resolveOdds, mark_bets_resolved,
      delete_bets_for_message, DEFAULT_START_BALANCE]

/-- C3 amended: the settlement reproduces the spec's second and third vectors
exactly, while the first vector pays 40 (ratio exactly 1/3, bonus ⌊10⌋ = 10),
not 39. -/
theorem claim_C3_amended_vectors :
    cmd_resolve "m" 1
      (⟨[], [⟨"m", "u1", 1, 30, false⟩, ⟨"m", "u2", 1, 270, false⟩,
        ⟨"m", "u3", 2, 100, false⟩], none⟩ : Ledger) =
      .ok (⟨[("u1", 140), ("u2", 460)], [], none⟩,
        [⟨"u1", true, 30, 40⟩, ⟨"u2", true, 270, 360⟩, ⟨"u3", false, 100, 0⟩]) ∧
    winnerPayout 30 300 100 = 40 ∧
    cmd_resolve "m" 1
      (⟨[], [⟨"m", "u1", 1, 50, false⟩, ⟨"m", "u2", 1, 50, false⟩,
        ⟨"m", "u3", 2, 1000, false⟩], none⟩ : Ledger) =
      .ok (⟨[("u1", 200), ("u2", 200)], [], none⟩,
        [⟨"u1", true, 50, 100⟩, ⟨"u2", true, 50, 100⟩, ⟨"u3", false, 1000, 0⟩]) ∧
    winnerPayout 50 100 1000 = 100 ∧
    resolveOdds 100 1000 = 1 ∧
    cmd_resolve "m" 1
      (⟨[], [⟨"m", "u1", 1, 40, false⟩, ⟨"m", "u2", 1, 960, false⟩,
        ⟨"m", "u3", 2, 50, false⟩], none⟩ : Ledger) =
      .ok (⟨[("u1", 150), ("u2", 1300)], [], none⟩,
        [⟨"u1", true, 40, 50⟩, ⟨"u2", true, 960, 1200⟩, ⟨"u3", false, 50, 0⟩]) ∧
    winnerPayout 40 1000 50 = 50 ∧
    resolveOdds 1000 50 = 1/4 := by
  refine ⟨?_, by norm_num [winnerPayout, pyInt, resolveOdds], ?_,
    by norm_num [winnerPayout, pyInt, resolveOdds],
    by norm_num [resolveOdds], ?_,
    by norm_num [winnerPayout, pyInt, resolveOdds],
    by norm_num [resolveOdds]⟩
  · norm_num +decide [cmd_resolve, winningTotal, losingTotal, get_bets_for_message,
      settleBets, creditWinner, get_user_balance, set_user_balance, lookupBalance,
      lookupBal, upsertBalance, winnerPayout, pyInt, resolveOdds, mark_bets_resolved,
      delete_bets_for_message, DEFAULT_START_BALANCE]
  · norm_num +decide [cmd_resolve, winningTotal, losingTotal, get_bets_for_message,
      settleBets, creditWinner, get_user_balance, set_user_balance, lookupBalance,
      lookupBal, upsertBalance, winnerPayout, pyInt, resolveOdds, mark_bets_resolved,
      delete_bets_for_message, DEFAULT_START_BALANCE]
  · norm_num +decide [cmd_resolve, winningTotal, losingTotal, get_bets_for_message,
      settleBets, creditWinner, get_user_balance, set_user_balance, lookupBalance,
      lookupBal, upsertBalance, winnerPayout, pyInt, resolveOdds, mark_bets_resolved,
      delete_bets_for_message, DEFAULT_START_BALANCE]

end LuckyBot
